import Mathlib

/-!
Verification development for the noisy-nyc street navigation core.

The definitions below are shallow embeddings of the TypeScript source:
the grid navigation state machine and grid geometry from
`src/components/ComplaintMap.tsx`, the bearing-aware image selector and
API route from `src/app/api/streetview/route.ts`, and the two-tier
street-view cache from the client cache module. JavaScript numbers that
only ever hold small integers are modelled as `Int`/`Nat`; angles and
coordinates that participate only in field arithmetic and comparisons
are modelled as `Rat` (the code never relies on float rounding there);
`POSITIVE_INFINITY` sentinels become `Option Rat` with `none` for
infinity; nullable values become `Option`.
-/

namespace NoisyNyc

/-! ## Grid model (ComplaintMap.tsx) -/

/-- GridPosition from ComplaintMap.tsx: discrete street/avenue pair. -/
structure GridPosition where
  street : Int
  avenue : Int
deriving DecidableEq, Repr

/-- Heading: one of four cardinal values. -/
inductive Heading where
  | north
  | east
  | south
  | west
deriving DecidableEq, Repr, BEq

/-- Turn direction argument of `handleTurn` / `rotateHeading`. -/
inductive Turn where
  | left
  | right
deriving DecidableEq, Repr

/-- headingOrder array from the source, in the same order. -/
def headingOrder : List Heading :=
  [Heading.north, Heading.east, Heading.south, Heading.west]

/-- headingVectors record from the source. -/
def headingVectors : Heading → GridPosition
  | Heading.north => ⟨1, 0⟩
  | Heading.south => ⟨-1, 0⟩
  | Heading.east => ⟨0, 1⟩
  | Heading.west => ⟨0, -1⟩

/-- oppositeHeading record from the source. -/
def oppositeHeading : Heading → Heading
  | Heading.north => Heading.south
  | Heading.south => Heading.north
  | Heading.east => Heading.west
  | Heading.west => Heading.east

/-- GRID_BOUNDS constant from the source. -/
structure GridBounds where
  minStreet : Int
  maxStreet : Int
  minAvenue : Int
  maxAvenue : Int

def GRID_BOUNDS : GridBounds := ⟨-25, 55, -6, 6⟩

def ORIGIN_STREET_NUMBER : Int := 45

def ORIGIN_AVENUE_NUMBER : Int := 7

/-- AVENUE_LABELS lookup table; `none` models a missing (falsy) entry. -/
def AVENUE_LABELS : Int → Option String
  | 1 => some "1st Ave"
  | 2 => some "2nd Ave"
  | 3 => some "3rd Ave"
  | 4 => some "Lexington Ave"
  | 5 => some "Madison Ave"
  | 6 => some "6th Ave"
  | 7 => some "7th Ave"
  | 8 => some "8th Ave"
  | 9 => some "9th Ave"
  | 10 => some "10th Ave"
  | 11 => some "11th Ave"
  | 12 => some "12th Ave"
  | _ => none

/-- rotateHeading from the source: index arithmetic on headingOrder.
The JavaScript index arithmetic is on nonnegative numbers, where the
`%` operator agrees with `Int.emod`. -/
def rotateHeading (heading : Heading) (turn : Turn) : Heading :=
  let index : Int := headingOrder.indexOf heading
  let offset : Int := if turn = Turn.right then 1 else -1
  let nextIndex : Int := (index + offset + headingOrder.length) % headingOrder.length
  headingOrder.getD nextIndex.toNat Heading.north

/-- ordinalSuffix from the source. -/
def ordinalSuffix (value : Int) : String :=
  let absValue := value.natAbs
  let lastDigit := absValue % 10
  let lastTwoDigits := absValue % 100
  if 11 ≤ lastTwoDigits ∧ lastTwoDigits ≤ 13 then
    toString value ++ "th"
  else if lastDigit = 1 then
    toString value ++ "st"
  else if lastDigit = 2 then
    toString value ++ "nd"
  else if lastDigit = 3 then
    toString value ++ "rd"
  else
    toString value ++ "th"

/-- formatStreetLabel from the source. -/
def formatStreetLabel (position : GridPosition) : String :=
  let streetNumber := ORIGIN_STREET_NUMBER + position.street
  let avenueNumber := ORIGIN_AVENUE_NUMBER + position.avenue
  let eastWestPrefix := if 5 ≤ avenueNumber then "W" else "E"
  eastWestPrefix ++ " " ++ ordinalSuffix streetNumber ++ " St"

/-- formatAvenueLabel from the source. -/
def formatAvenueLabel (position : GridPosition) : String :=
  let avenueNumber := ORIGIN_AVENUE_NUMBER + position.avenue
  match AVENUE_LABELS avenueNumber with
  | some label => label
  | none => ordinalSuffix avenueNumber ++ " Ave"

/-- IntersectionLabel from the source. -/
structure IntersectionLabel where
  street : String
  avenue : String
deriving DecidableEq, Repr

/-- describeIntersection from the source. -/
def describeIntersection (position : GridPosition) : IntersectionLabel :=
  ⟨formatStreetLabel position, formatAvenueLabel position⟩

/-- isWithinBounds from the source. -/
def isWithinBounds (candidate : GridPosition) : Bool :=
  decide (GRID_BOUNDS.minStreet ≤ candidate.street) &&
  decide (candidate.street ≤ GRID_BOUNDS.maxStreet) &&
  decide (GRID_BOUNDS.minAvenue ≤ candidate.avenue) &&
  decide (candidate.avenue ≤ GRID_BOUNDS.maxAvenue)

/-- clampToBounds from the source. -/
def clampToBounds (candidate : GridPosition) : GridPosition :=
  ⟨min (max candidate.street GRID_BOUNDS.minStreet) GRID_BOUNDS.maxStreet,
   min (max candidate.avenue GRID_BOUNDS.minAvenue) GRID_BOUNDS.maxAvenue⟩

/-- headingDescriptions record from the source. -/
def headingDescriptions : Heading → String
  | Heading.north => "north uptown"
  | Heading.south => "south downtown"
  | Heading.east => "east toward the river"
  | Heading.west => "west toward the river"

/-- headingShort record from the source. -/
def headingShort : Heading → String
  | Heading.north => "North"
  | Heading.south => "South"
  | Heading.east => "East"
  | Heading.west => "West"

/-! ## Navigation engine (ComplaintMap.tsx component state) -/

/-- The React component state the transition handlers touch: position,
heading and the human-readable status line. -/
structure NavState where
  position : GridPosition
  heading : Heading
  statusLine : String
deriving DecidableEq, Repr

/-- canMove from the source. -/
def canMove (start : GridPosition) (direction : Heading) : Bool :=
  let vector := headingVectors direction
  let candidate : GridPosition := ⟨start.street + vector.street, start.avenue + vector.avenue⟩
  isWithinBounds candidate

/-- moveOneBlock from the source: recomputes the candidate cell, keeps
the previous position when the candidate is out of bounds (without
touching the status line), and otherwise stores the candidate and sets
the rolling status. -/
def moveOneBlock (movementHeading : Heading) (s : NavState) : NavState :=
  let vector := headingVectors movementHeading
  let candidate : GridPosition := ⟨s.position.street + vector.street, s.position.avenue + vector.avenue⟩
  if isWithinBounds candidate then
    let nextIntersectionLabel := describeIntersection candidate
    { position := candidate
      heading := s.heading
      statusLine := "Rolling " ++ headingDescriptions movementHeading ++ " toward "
        ++ nextIntersectionLabel.street ++ " and " ++ nextIntersectionLabel.avenue ++ "." }
  else
    s

/-- handleMoveForward from the source. -/
def handleMoveForward (s : NavState) : NavState :=
  if canMove s.position s.heading then
    moveOneBlock s.heading s
  else
    { s with statusLine := "Can\x27t head toward " ++ headingShort s.heading
        ++ " — that block is closed off." }

/-- handleMoveBackward from the source. -/
def handleMoveBackward (s : NavState) : NavState :=
  let reverseHeading := oppositeHeading s.heading
  if canMove s.position reverseHeading then
    moveOneBlock reverseHeading s
  else
    { s with statusLine := "Can\x27t back toward " ++ headingShort reverseHeading
        ++ " — construction behind you." }

/-- handleTurn from the source: the heading always rotates; the engine
then attempts the same bounds-checked move in the new heading. -/
def handleTurn (direction : Turn) (s : NavState) : NavState :=
  let nextHeading := rotateHeading s.heading direction
  if canMove s.position nextHeading then
    moveOneBlock nextHeading { s with heading := nextHeading }
  else
    { position := s.position
      heading := nextHeading
      statusLine := "Facing " ++ headingShort nextHeading
        ++ " — that block is closed off. Try another way or head back." }

/-! ## Navigation lemmas -/

/-- The candidate cell one block from `p` in direction `h`, as computed
inside canMove, moveOneBlock and the next-intersection preview. -/
def stepPos (p : GridPosition) (h : Heading) : GridPosition :=
  ⟨p.street + (headingVectors h).street, p.avenue + (headingVectors h).avenue⟩

theorem canMove_eq (start : GridPosition) (direction : Heading) :
    canMove start direction = isWithinBounds (stepPos start direction) := rfl

theorem moveOneBlock_position (movementHeading : Heading) (s : NavState) :
    (moveOneBlock movementHeading s).position =
      if isWithinBounds (stepPos s.position movementHeading) then
        stepPos s.position movementHeading
      else s.position := by
  simp only [moveOneBlock, stepPos]
  split <;> rfl

theorem moveOneBlock_heading (movementHeading : Heading) (s : NavState) :
    (moveOneBlock movementHeading s).heading = s.heading := by
  simp only [moveOneBlock]
  split <;> rfl

theorem moveOneBlock_in_bounds (movementHeading : Heading) (s : NavState)
    (hpos : isWithinBounds s.position = true) :
    isWithinBounds (moveOneBlock movementHeading s).position = true := by
  rw [moveOneBlock_position]
  split
  next h => exact h
  next => exact hpos

theorem stepPos_opposite (p : GridPosition) (h : Heading) :
    stepPos (stepPos p h) (oppositeHeading h) = p := by
  obtain ⟨ps, pa⟩ := p
  cases h <;> simp [stepPos, headingVectors, oppositeHeading]

/-- Claim C2: from an in-bounds state, each of the four transitions
(moveForward, moveBackward, turnLeft, turnRight) keeps the position
within GRID_BOUNDS, and when the forward candidate cell is out of
bounds moveForward leaves the position unchanged and sets the blocked
status line. -/
theorem transitions_preserve_bounds (s : NavState)
    (hpos : isWithinBounds s.position = true) :
    isWithinBounds (handleMoveForward s).position = true
    ∧ isWithinBounds (handleMoveBackward s).position = true
    ∧ isWithinBounds (handleTurn Turn.left s).position = true
    ∧ isWithinBounds (handleTurn Turn.right s).position = true
    ∧ (canMove s.position s.heading = false →
        (handleMoveForward s).position = s.position
        ∧ (handleMoveForward s).statusLine =
            "Can\x27t head toward " ++ headingShort s.heading
              ++ " — that block is closed off.") := by
  have hturn : ∀ d : Turn, isWithinBounds (handleTurn d s).position = true := by
    intro d
    cases hcm : canMove s.position (rotateHeading s.heading d) with
    | false => simpa [handleTurn, hcm] using hpos
    | true =>
      have := moveOneBlock_in_bounds (rotateHeading s.heading d)
        { s with heading := rotateHeading s.heading d } hpos
      simpa [handleTurn, hcm] using this
  refine ⟨?_, ?_, hturn Turn.left, hturn Turn.right, ?_⟩
  · cases hcm : canMove s.position s.heading with
    | false => simpa [handleMoveForward, hcm] using hpos
    | true =>
      simpa [handleMoveForward, hcm] using moveOneBlock_in_bounds s.heading s hpos
  · cases hcm : canMove s.position (oppositeHeading s.heading) with
    | false => simpa [handleMoveBackward, hcm] using hpos
    | true =>
      simpa [handleMoveBackward, hcm] using
        moveOneBlock_in_bounds (oppositeHeading s.heading) s hpos
  · intro hblocked
    constructor
    · simp [handleMoveForward, hblocked]
    · simp [handleMoveForward, hblocked]

/-- Witness for C2: at street = maxStreet facing north, the state is in
bounds, the forward candidate is blocked, and moveForward keeps the
position and reports the block. -/
theorem transitions_preserve_bounds_witness :
    isWithinBounds (⟨55, 0⟩ : GridPosition) = true
    ∧ canMove ⟨55, 0⟩ Heading.north = false
    ∧ (handleMoveForward ⟨⟨55, 0⟩, Heading.north, ""⟩).position = (⟨55, 0⟩ : GridPosition)
    ∧ (handleMoveForward ⟨⟨55, 0⟩, Heading.north, ""⟩).statusLine =
        "Can\x27t head toward North — that block is closed off." := by
  have h := transitions_preserve_bounds ⟨⟨55, 0⟩, Heading.north, ""⟩ (by decide)
  have hb := h.2.2.2.2 (by decide)
  exact ⟨by decide, by decide, hb.1, hb.2⟩

/-- Claim C3: handleTurn first rotates the heading one step; when the
cell one block ahead in the new heading is in bounds the position also
advances one block in that heading, otherwise the position is
unchanged. -/
theorem handleTurn_rotates_and_moves (s : NavState) (direction : Turn) :
    (handleTurn direction s).heading = rotateHeading s.heading direction
    ∧ (canMove s.position (rotateHeading s.heading direction) = true →
        (handleTurn direction s).position =
          stepPos s.position (rotateHeading s.heading direction))
    ∧ (canMove s.position (rotateHeading s.heading direction) = false →
        (handleTurn direction s).position = s.position) := by
  refine ⟨?_, ?_, ?_⟩
  · cases hcm : canMove s.position (rotateHeading s.heading direction) with
    | false => simp [handleTurn, hcm]
    | true => simp [handleTurn, hcm, moveOneBlock_heading]
  · intro h
    have h' : isWithinBounds (stepPos s.position (rotateHeading s.heading direction)) = true := h
    simp [handleTurn, h, moveOneBlock_position, h']
  · intro h
    simp [handleTurn, h]

/-- Witness for C3 and the concrete scenario from the spec: at
(street 0, avenue 0) facing north, turnRight yields heading east and
position (0, 1). -/
theorem handleTurn_rotates_and_moves_witness :
    (handleTurn Turn.right ⟨⟨0, 0⟩, Heading.north, ""⟩).heading = Heading.east
    ∧ (handleTurn Turn.right ⟨⟨0, 0⟩, Heading.north, ""⟩).position = (⟨0, 1⟩ : GridPosition) := by
  have h := handleTurn_rotates_and_moves ⟨⟨0, 0⟩, Heading.north, ""⟩ Turn.right
  exact ⟨h.1.trans (by decide), (h.2.1 (by decide)).trans (by decide)⟩

/-- Claim C9: from an in-bounds state with both the cell ahead and the
cell behind in bounds, moveForward then moveBackward restores the
original position (the heading is unchanged in between), and the
movement vector of the opposite heading is the negation of the
heading vector. -/
theorem moveForward_moveBackward_cancel (s : NavState)
    (hpos : isWithinBounds s.position = true)
    (hfwd : canMove s.position s.heading = true)
    (hbwd : canMove s.position (oppositeHeading s.heading) = true) :
    (handleMoveBackward (handleMoveForward s)).position = s.position
    ∧ (handleMoveForward s).heading = s.heading
    ∧ ∀ h : Heading, headingVectors (oppositeHeading h) =
        ⟨-(headingVectors h).street, -(headingVectors h).avenue⟩ := by
  have hfwd' : isWithinBounds (stepPos s.position s.heading) = true := hfwd
  have h1 : handleMoveForward s = moveOneBlock s.heading s := by
    simp [handleMoveForward, hfwd]
  have hh1 : (handleMoveForward s).heading = s.heading := by
    rw [h1]; exact moveOneBlock_heading _ _
  have hpos1 : (handleMoveForward s).position = stepPos s.position s.heading := by
    rw [h1, moveOneBlock_position, if_pos hfwd']
  have hcan2 : canMove (handleMoveForward s).position
      (oppositeHeading (handleMoveForward s).heading) = true := by
    rw [hh1, hpos1, canMove_eq, stepPos_opposite]
    exact hpos
  have h2 : handleMoveBackward (handleMoveForward s) =
      moveOneBlock (oppositeHeading (handleMoveForward s).heading) (handleMoveForward s) := by
    simp [handleMoveBackward, hcan2]
  refine ⟨?_, hh1, ?_⟩
  · rw [h2, moveOneBlock_position, hh1, hpos1, stepPos_opposite, if_pos hpos]
  · intro h
    cases h <;> rfl

/-- Witness for C9 at the origin facing north. -/
theorem moveForward_moveBackward_cancel_witness :
    isWithinBounds (⟨0, 0⟩ : GridPosition) = true
    ∧ canMove ⟨0, 0⟩ Heading.north = true
    ∧ canMove ⟨0, 0⟩ (oppositeHeading Heading.north) = true
    ∧ (handleMoveBackward (handleMoveForward ⟨⟨0, 0⟩, Heading.north, ""⟩)).position =
        (⟨0, 0⟩ : GridPosition) := by
  have h := moveForward_moveBackward_cancel ⟨⟨0, 0⟩, Heading.north, ""⟩
    (by decide) (by decide) (by decide)
  exact ⟨by decide, by decide, by decide, h.1⟩

/-! ## Street-view selector (route.ts and the client fetch module) -/

/-- Truncated integer part (toward zero) of a rational, matching the
rounding JavaScript uses inside the `%` operator; `Int.tdiv` truncates
toward zero and the numerator/denominator pair is already reduced. -/
def truncQ (q : ℚ) : ℤ :=
  q.num.tdiv q.den

/-- JavaScript `Math.abs` on finite numbers. -/
def jsAbs (q : ℚ) : ℚ :=
  if q < 0 then -q else q

/-- JavaScript remainder `x % y` on finite numbers (y positive here):
the result takes the sign of the dividend. -/
def jsMod (x y : ℚ) : ℚ :=
  x - y * truncQ (x / y)

/-- normalizeBearingDifference from route.ts. -/
def normalizeBearingDifference (a b : ℚ) : ℚ :=
  let diff := jsMod (jsAbs (a - b)) 360
  if 180 < diff then 360 - diff else diff

theorem jsAbs_eq_abs (q : ℚ) : jsAbs q = |q| := by
  unfold jsAbs
  split
  · next h => rw [abs_of_neg h]
  · next h => rw [abs_of_nonneg (le_of_not_lt h)]

/-- StreetViewFrame from the cache module; optional fields are `null`
in the source. -/
structure StreetViewFrame where
  imageUrl : String
  capturedAt : Option String
  compassAngle : Option ℚ
  id : Option String
deriving DecidableEq, Repr

/-- StreetViewPayload from the cache module. -/
structure StreetViewPayload where
  images : List StreetViewFrame
  preferredIndex : Nat
deriving DecidableEq, Repr

/-- One record of the upstream image-index response, after the ad hoc
type narrowing in the candidate loop: a field is `some` exactly when
the JSON field exists with the checked type. -/
structure RawImage where
  thumb2048 : Option String
  thumb1024 : Option String
  thumb512 : Option String
  capturedAt : Option String
  compassAngle : Option ℚ
  id : Option String
deriving DecidableEq, Repr

/-- CandidateFrame from the selector loop; `none` for diff models
`Number.POSITIVE_INFINITY`. -/
structure CandidateFrame where
  frame : StreetViewFrame
  diff : Option ℚ
deriving DecidableEq, Repr

/-- JavaScript `<` on finite numbers extended with positive infinity
(`none`): infinity is never below anything, and every finite number is
below infinity. -/
def ltInf : Option ℚ → Option ℚ → Bool
  | some a, some b => decide (a < b)
  | some _, none => true
  | none, _ => false

/-- Companion non-strict order with `none` as positive infinity; used
only in the statements about the selector. -/
def leInf : Option ℚ → Option ℚ → Bool
  | _, none => true
  | none, some _ => false
  | some a, some b => decide (a ≤ b)

/-- The thumbnail fallback chain of the candidate loop: 2048 first,
then 1024, then 512. -/
def pickThumb (image : RawImage) : Option String :=
  match image.thumb2048 with
  | some t => some t
  | none =>
    match image.thumb1024 with
    | some t => some t
    | none => image.thumb512

/-- One iteration body of the candidate loop: skip the record when no
thumbnail is usable, otherwise build the frame and its bearing
difference (infinite when the bearing or the compass angle is
unknown). -/
def mkCandidate (normalizedBearing : Option ℚ) (image : RawImage) : Option CandidateFrame :=
  match pickThumb image with
  | none => none
  | some thumb =>
    let compassAngle := image.compassAngle
    let diff : Option ℚ :=
      match normalizedBearing, compassAngle with
      | some b, some c => some (normalizeBearingDifference c b)
      | _, _ => none
    some ⟨⟨thumb, image.capturedAt, compassAngle, image.id⟩, diff⟩

/-- The candidate loop of route.ts: a fold that pushes surviving
candidates in response order. -/
def buildCandidates (normalizedBearing : Option ℚ) (images : List RawImage) :
    List CandidateFrame :=
  images.foldl
    (fun acc image =>
      match mkCandidate normalizedBearing image with
      | none => acc
      | some c => acc ++ [c])
    []

/-- The forEach scan of route.ts that tracks bestDiff (starting at
positive infinity) and preferredIndex (starting at 0), updating both on
a strictly smaller difference. -/
def findPreferred : List (Option ℚ) → Option ℚ → Nat → Nat → Nat
  | [], _, preferredIndex, _ => preferredIndex
  | d :: rest, bestDiff, preferredIndex, index =>
    if ltInf d bestDiff then
      findPreferred rest d index (index + 1)
    else
      findPreferred rest bestDiff preferredIndex (index + 1)

/-- preferredIndex computation of route.ts: stays 0 unless a finite
normalized bearing is available. -/
def computePreferredIndex (normalizedBearing : Option ℚ) (candidates : List CandidateFrame) :
    Nat :=
  match normalizedBearing with
  | none => 0
  | some _ => findPreferred (candidates.map CandidateFrame.diff) none 0 0

/-- The selector pipeline of route.ts after the upstream JSON is
parsed: empty data and empty candidate list both yield the empty
payload, otherwise the frames keep the candidate order and the
preferred index is clamped into range. -/
def selectPayload (normalizedBearing : Option ℚ) (images : List RawImage) :
    StreetViewPayload :=
  if images.length = 0 then ⟨[], 0⟩
  else
    let candidates := buildCandidates normalizedBearing images
    if candidates.length = 0 then ⟨[], 0⟩
    else
      let preferredIndex := computePreferredIndex normalizedBearing candidates
      let frames := candidates.map CandidateFrame.frame
      ⟨frames, min (max preferredIndex 0) (frames.length - 1)⟩

/-- Specification-level description of the frame list: the upstream
records that have a usable thumbnail, in original response order. -/
def framesSpec (images : List RawImage) : List StreetViewFrame :=
  images.filterMap fun image =>
    (pickThumb image).map fun thumb =>
      ⟨thumb, image.capturedAt, image.compassAngle, image.id⟩

/-- Element of a difference list at an index, with infinity as the
out-of-range default. -/
def nthInf (l : List (Option ℚ)) (i : Nat) : Option ℚ :=
  l.getD i none

/-- Loop invariant of the preferredIndex scan: bestDiff is the value at
preferredIndex, no earlier element is at most bestDiff (first
occurrence wins ties), and no element at all is below bestDiff. -/
def PrefInv (l : List (Option ℚ)) (bestDiff : Option ℚ) (preferredIndex : Nat) : Prop :=
  (l = [] → bestDiff = none ∧ preferredIndex = 0)
  ∧ (l ≠ [] → preferredIndex < l.length ∧ bestDiff = nthInf l preferredIndex)
  ∧ (∀ j, j < l.length → leInf bestDiff (nthInf l j) = true)
  ∧ (∀ j, j < preferredIndex → leInf (nthInf l j) bestDiff = false)

theorem leInf_refl (x : Option ℚ) : leInf x x = true := by
  cases x <;> simp [leInf]

theorem leInf_of_not_ltInf : ∀ {d b : Option ℚ}, ltInf d b = false → leInf b d = true
  | none, none, _ => rfl
  | none, some _, _ => rfl
  | some _, none, h => by simp [ltInf] at h
  | some a, some b, h => by
    simp [ltInf] at h
    simpa [leInf] using h

theorem leInf_trans_ltInf : ∀ {d b x : Option ℚ},
    ltInf d b = true → leInf b x = true → leInf d x = true
  | none, b, x, h1, _ => by simp [ltInf] at h1
  | some _, none, none, _, _ => rfl
  | some _, none, some _, _, h2 => by simp [leInf] at h2
  | some _, some _, none, _, _ => rfl
  | some a, some b, some x, h1, h2 => by
    simp [ltInf] at h1
    simp [leInf] at h2 ⊢
    linarith

theorem leInf_ltInf_false : ∀ {d b x : Option ℚ},
    ltInf d b = true → leInf b x = true → leInf x d = false
  | none, b, x, h1, _ => by simp [ltInf] at h1
  | some _, none, none, _, _ => rfl
  | some _, none, some _, _, h2 => by simp [leInf] at h2
  | some _, some _, none, _, _ => rfl
  | some a, some b, some x, h1, h2 => by
    simp [ltInf] at h1
    simp [leInf] at h2 ⊢
    linarith

theorem nthInf_nil (j : Nat) : nthInf [] j = none := rfl

theorem nthInf_append_lt (l l2 : List (Option ℚ)) (j : Nat) (hj : j < l.length) :
    nthInf (l ++ l2) j = nthInf l j := by
  unfold nthInf
  induction l generalizing j with
  | nil => simp at hj
  | cons hd tl ih =>
    cases j with
    | zero => rfl
    | succ j => exact ih j (by simpa using hj)

theorem nthInf_append_len (l : List (Option ℚ)) (d : Option ℚ) :
    nthInf (l ++ [d]) l.length = d := by
  unfold nthInf
  induction l with
  | nil => rfl
  | cons hd tl ih => simpa using ih

theorem nthInf_mem (l : List (Option ℚ)) (j : Nat) (hj : j < l.length) :
    nthInf l j ∈ l := by
  unfold nthInf
  induction l generalizing j with
  | nil => simp at hj
  | cons hd tl ih =>
    cases j with
    | zero => simp
    | succ j => simpa using Or.inr (ih j (by simpa using hj))

theorem PrefInv_step (l : List (Option ℚ)) (b : Option ℚ) (p : Nat) (d : Option ℚ)
    (h : PrefInv l b p) :
    PrefInv (l ++ [d]) (if ltInf d b then d else b)
      (if ltInf d b then l.length else p) := by
  obtain ⟨hnil, hcons, hmin, hfirst⟩ := h
  have hlen : (l ++ [d]).length = l.length + 1 := by simp
  by_cases hlt : ltInf d b = true
  · simp only [hlt, if_true]
    refine ⟨?_, ?_, ?_, ?_⟩
    · intro hc
      exact absurd hc (by simp)
    · intro _
      exact ⟨by rw [hlen]; omega, (nthInf_append_len l d).symm⟩
    · intro j hj
      rw [hlen] at hj
      rcases Nat.lt_succ_iff_lt_or_eq.mp hj with hj' | hj'
      · rw [nthInf_append_lt l [d] j hj']
        exact leInf_trans_ltInf hlt (hmin j hj')
      · subst hj'
        rw [nthInf_append_len]
        exact leInf_refl d
    · intro j hj
      rw [nthInf_append_lt l [d] j hj]
      exact leInf_ltInf_false hlt (hmin j hj)
  · have hlt' : ltInf d b = false := by simpa using hlt
    simp only [hlt', Bool.false_eq_true, if_false]
    by_cases hl : l = []
    · subst hl
      obtain ⟨hb, hp⟩ := hnil rfl
      subst hb
      subst hp
      have hd : d = none := by
        cases d with
        | none => rfl
        | some q => simp [ltInf] at hlt'
      subst hd
      refine ⟨?_, ?_, ?_, ?_⟩
      · intro hc
        simp at hc
      · intro _
        exact ⟨by simp, rfl⟩
      · intro j hj
        simp at hj
        have hj0 : j = 0 := by omega
        subst hj0
        rfl
      · intro j hj
        exact absurd hj (Nat.not_lt_zero j)
    · obtain ⟨hplen, hb⟩ := hcons hl
      refine ⟨?_, ?_, ?_, ?_⟩
      · intro hc
        simp at hc
      · intro _
        refine ⟨by rw [hlen]; omega, ?_⟩
        rw [nthInf_append_lt l [d] p hplen]
        exact hb
      · intro j hj
        rw [hlen] at hj
        rcases Nat.lt_succ_iff_lt_or_eq.mp hj with hj' | hj'
        · rw [nthInf_append_lt l [d] j hj']
          exact hmin j hj'
        · subst hj'
          rw [nthInf_append_len]
          exact leInf_of_not_ltInf hlt'
      · intro j hj
        rw [nthInf_append_lt l [d] j (lt_trans hj hplen)]
        exact hfirst j hj

theorem findPreferred_inv : ∀ (rest pre : List (Option ℚ)) (b : Option ℚ) (p : Nat),
    PrefInv pre b p →
    ∃ b2, PrefInv (pre ++ rest) b2 (findPreferred rest b p pre.length) := by
  intro rest
  induction rest with
  | nil =>
    intro pre b p h
    exact ⟨b, by simpa [findPreferred] using h⟩
  | cons d rest ih =>
    intro pre b p h
    have hstep := PrefInv_step pre b p d h
    by_cases hlt : ltInf d b = true
    · rw [findPreferred, if_pos hlt]
      rw [if_pos hlt, if_pos hlt] at hstep
      have := ih (pre ++ [d]) d pre.length hstep
      simpa [List.append_assoc] using this
    · have hlt' : ltInf d b = false := by simpa using hlt
      rw [findPreferred, if_neg (by simp [hlt'])]
      rw [if_neg (by simp [hlt']), if_neg (by simp [hlt'])] at hstep
      have := ih (pre ++ [d]) b p hstep
      simpa [List.append_assoc] using this

theorem findPreferred_spec (ds : List (Option ℚ)) :
    ∃ b2, PrefInv ds b2 (findPreferred ds none 0 0) := by
  have h0 : PrefInv [] none 0 := by
    refine ⟨fun _ => ⟨rfl, rfl⟩, fun hc => absurd rfl hc, ?_, ?_⟩
    · intro j hj
      exact absurd hj (by simp)
    · intro j hj
      exact absurd hj (Nat.not_lt_zero j)
  simpa using findPreferred_inv ds [] none 0 h0

theorem foldl_push_eq_filterMap (f : RawImage → Option CandidateFrame) :
    ∀ (images : List RawImage) (acc : List CandidateFrame),
      images.foldl
        (fun acc image =>
          match f image with
          | none => acc
          | some c => acc ++ [c]) acc
        = acc ++ images.filterMap f := by
  intro images
  induction images with
  | nil => intro acc; simp
  | cons hd tl ih =>
    intro acc
    cases hf : f hd with
    | none => simp [List.filterMap_cons, hf, ih]
    | some c => simp [List.filterMap_cons, hf, ih]

theorem buildCandidates_eq (normalizedBearing : Option ℚ) (images : List RawImage) :
    buildCandidates normalizedBearing images = images.filterMap (mkCandidate normalizedBearing) := by
  simpa using foldl_push_eq_filterMap (mkCandidate normalizedBearing) images []

theorem framesSpec_eq (normalizedBearing : Option ℚ) (images : List RawImage) :
    (buildCandidates normalizedBearing images).map CandidateFrame.frame = framesSpec images := by
  rw [buildCandidates_eq, List.map_filterMap]
  unfold framesSpec
  apply List.filterMap_congr
  intro image _
  cases hp : pickThumb image with
  | none => simp [mkCandidate, hp]
  | some t => simp [mkCandidate, hp]

theorem buildCandidates_nil (normalizedBearing : Option ℚ) :
    buildCandidates normalizedBearing [] = [] := rfl

theorem selectPayload_images (normalizedBearing : Option ℚ) (images : List RawImage) :
    (selectPayload normalizedBearing images).images = framesSpec images := by
  unfold selectPayload
  split
  · next h =>
    have himg : images = [] := List.length_eq_zero.mp h
    subst himg
    simp [framesSpec]
  · next h =>
    dsimp only
    split
    · next h2 =>
      have hb : buildCandidates normalizedBearing images = [] := List.length_eq_zero.mp h2
      have := framesSpec_eq normalizedBearing images
      rw [hb] at this
      simpa using this.symm
    · next h2 =>
      exact framesSpec_eq normalizedBearing images

theorem selectPayload_eq_of_ne (normalizedBearing : Option ℚ) (images : List RawImage)
    (hne : buildCandidates normalizedBearing images ≠ []) :
    selectPayload normalizedBearing images =
      ⟨(buildCandidates normalizedBearing images).map CandidateFrame.frame,
       min (max (computePreferredIndex normalizedBearing
            (buildCandidates normalizedBearing images)) 0)
         (((buildCandidates normalizedBearing images).map CandidateFrame.frame).length - 1)⟩ := by
  have himg : images.length ≠ 0 := by
    intro h
    exact hne (by rw [List.length_eq_zero.mp h]; rfl)
  have hcs : (buildCandidates normalizedBearing images).length ≠ 0 := by
    simpa using hne
  unfold selectPayload
  rw [if_neg himg, if_neg hcs]

theorem selectPayload_preferred_none (images : List RawImage) :
    (selectPayload none images).preferredIndex = 0 := by
  unfold selectPayload
  split
  · rfl
  · dsimp only
    split
    · rfl
    · simp [computePreferredIndex]

theorem mkCandidate_none_diff (image : RawImage) (c : CandidateFrame)
    (h : mkCandidate none image = some c) : c.diff = none := by
  unfold mkCandidate at h
  cases hp : pickThumb image with
  | none => rw [hp] at h; exact absurd h (by simp)
  | some t =>
    rw [hp] at h
    simp at h
    rw [← h]


theorem computePreferredIndex_spec (normalizedBearing : Option ℚ) (cs : List CandidateFrame)
    (hne : cs ≠ [])
    (hnone : normalizedBearing = none → ∀ c ∈ cs, c.diff = none) :
    computePreferredIndex normalizedBearing cs < cs.length
    ∧ (∀ j, j < cs.length →
        leInf (nthInf (cs.map CandidateFrame.diff) (computePreferredIndex normalizedBearing cs))
          (nthInf (cs.map CandidateFrame.diff) j) = true)
    ∧ (∀ j, j < computePreferredIndex normalizedBearing cs →
        leInf (nthInf (cs.map CandidateFrame.diff) j)
          (nthInf (cs.map CandidateFrame.diff) (computePreferredIndex normalizedBearing cs)) = false)
    ∧ ((∀ c ∈ cs, c.diff = none) → computePreferredIndex normalizedBearing cs = 0) := by
  have hcslen : 0 < cs.length := List.length_pos.mpr hne
  have hdiff_none : ∀ (hall : ∀ c ∈ cs, c.diff = none) (j : Nat),
      j < (cs.map CandidateFrame.diff).length → nthInf (cs.map CandidateFrame.diff) j = none := by
    intro hall j hj
    have hm := nthInf_mem (cs.map CandidateFrame.diff) j hj
    obtain ⟨c, hc, hceq⟩ := List.mem_map.mp hm
    rw [← hceq]
    exact hall c hc
  cases normalizedBearing with
  | none =>
    have hall := hnone rfl
    have hp0 : computePreferredIndex none cs = 0 := rfl
    rw [hp0]
    refine ⟨hcslen, ?_, ?_, fun _ => rfl⟩
    · intro j hj
      have hj' : j < (cs.map CandidateFrame.diff).length := by simpa using hj
      rw [hdiff_none hall j hj']
      simp [leInf]
    · intro j hj
      exact absurd hj (Nat.not_lt_zero j)
  | some bq =>
    obtain ⟨b2, hinv⟩ := findPreferred_spec (cs.map CandidateFrame.diff)
    have hdsne : cs.map CandidateFrame.diff ≠ [] := by
      simpa [List.map_eq_nil] using hne
    obtain ⟨hplen, hb2⟩ := hinv.2.1 hdsne
    have hplen' : computePreferredIndex (some bq) cs < cs.length := by
      show findPreferred (cs.map CandidateFrame.diff) none 0 0 < cs.length
      simpa using hplen
    refine ⟨hplen', ?_, ?_, ?_⟩
    · intro j hj
      have h1 := hinv.2.2.1 j (by simpa using hj)
      rw [hb2] at h1
      exact h1
    · intro j hj
      have hj' : j < findPreferred (cs.map CandidateFrame.diff) none 0 0 := hj
      have h1 := hinv.2.2.2 j hj'
      rw [hb2] at h1
      exact h1
    · intro hall
      by_contra hp0
      have hppos : 0 < findPreferred (cs.map CandidateFrame.diff) none 0 0 :=
        Nat.pos_of_ne_zero hp0
      have hfalse := hinv.2.2.2 0 hppos
      have h0 : nthInf (cs.map CandidateFrame.diff) 0 = none := by
        apply hdiff_none hall
        simpa using hcslen
      have hb2none : b2 = none := by
        rw [hb2]
        apply hdiff_none hall
        simpa using hplen
      rw [h0, hb2none] at hfalse
      simp [leInf] at hfalse

/-- Claim C4: the selector drops candidates without a usable thumbnail,
keeps the surviving frames in original response order, and returns a
preferred index that is the first position of the minimum bearing
difference in the `none`-as-infinity order (candidates without a
compass angle have infinite difference); when the bearing is unknown
the preferred index is 0, when no candidate has a finite difference the
preferred index is 0, and for a non-empty candidate list the preferred
index is within the frame list range. -/
theorem selector_spec (normalizedBearing : Option ℚ) (images : List RawImage) :
    (selectPayload normalizedBearing images).images = framesSpec images
    ∧ (selectPayload none images).preferredIndex = 0
    ∧ (buildCandidates normalizedBearing images ≠ [] →
        (selectPayload normalizedBearing images).preferredIndex
            < (selectPayload normalizedBearing images).images.length
        ∧ (∀ j, j < (buildCandidates normalizedBearing images).length →
            leInf
              (nthInf ((buildCandidates normalizedBearing images).map CandidateFrame.diff)
                (selectPayload normalizedBearing images).preferredIndex)
              (nthInf ((buildCandidates normalizedBearing images).map CandidateFrame.diff) j)
              = true)
        ∧ (∀ j, j < (selectPayload normalizedBearing images).preferredIndex →
            leInf
              (nthInf ((buildCandidates normalizedBearing images).map CandidateFrame.diff) j)
              (nthInf ((buildCandidates normalizedBearing images).map CandidateFrame.diff)
                (selectPayload normalizedBearing images).preferredIndex)
              = false)
        ∧ ((∀ c ∈ buildCandidates normalizedBearing images, c.diff = none) →
            (selectPayload normalizedBearing images).preferredIndex = 0)) := by
  refine ⟨selectPayload_images normalizedBearing images,
    selectPayload_preferred_none images, ?_⟩
  intro hne
  have hnone : normalizedBearing = none →
      ∀ c ∈ buildCandidates normalizedBearing images, c.diff = none := by
    intro hb c hc
    subst hb
    rw [buildCandidates_eq] at hc
    obtain ⟨image, _, himg⟩ := List.mem_filterMap.mp hc
    exact mkCandidate_none_diff image c himg
  obtain ⟨hlt, hmin, hfirst, hallnone⟩ :=
    computePreferredIndex_spec normalizedBearing (buildCandidates normalizedBearing images)
      hne hnone
  have hcslen : 0 < (buildCandidates normalizedBearing images).length :=
    List.length_pos.mpr hne
  have heq := selectPayload_eq_of_ne normalizedBearing images hne
  have hpref : (selectPayload normalizedBearing images).preferredIndex
      = computePreferredIndex normalizedBearing (buildCandidates normalizedBearing images) := by
    rw [heq]
    show min (max _ 0) _ = _
    rw [max_eq_left (Nat.zero_le _)]
    refine min_eq_left ?_
    simp only [List.length_map]
    omega
  have himg : (selectPayload normalizedBearing images).images
      = (buildCandidates normalizedBearing images).map CandidateFrame.frame := by
    rw [heq]
  refine ⟨?_, ?_, ?_, ?_⟩
  · rw [hpref, himg]
    simpa using hlt
  · intro j hj
    rw [hpref]
    exact hmin j hj
  · intro j hj
    rw [hpref]
    exact hfirst j (by rw [hpref] at hj; exact hj)
  · intro hall
    rw [hpref]
    exact hallnone hall

/-- Witness for C4: two usable candidates (compass angles 200 and 10, a
thumbless record dropped in between) against bearing 0; the selector
keeps both frames in order and the preferred index is in range. -/
theorem selector_spec_witness :
    buildCandidates (some 0)
        [⟨some "a", none, none, none, some 200, none⟩,
         ⟨none, none, none, none, some 10, none⟩,
         ⟨some "c", none, none, none, some 10, none⟩] ≠ []
    ∧ (selectPayload (some 0)
        [⟨some "a", none, none, none, some 200, none⟩,
         ⟨none, none, none, none, some 10, none⟩,
         ⟨some "c", none, none, none, some 10, none⟩]).preferredIndex
      < (selectPayload (some 0)
        [⟨some "a", none, none, none, some 200, none⟩,
         ⟨none, none, none, none, some 10, none⟩,
         ⟨some "c", none, none, none, some 10, none⟩]).images.length := by
  have h := selector_spec (some 0)
    [⟨some "a", none, none, none, some 200, none⟩,
     ⟨none, none, none, none, some 10, none⟩,
     ⟨some "c", none, none, none, some 10, none⟩]
  have hne : buildCandidates (some 0)
      [⟨some "a", none, none, none, some 200, none⟩,
       ⟨none, none, none, none, some 10, none⟩,
       ⟨some "c", none, none, none, some 10, none⟩] ≠ [] := by
    simp [buildCandidates, mkCandidate, pickThumb]
  exact ⟨hne, (h.2.2 hne).1⟩

/-- Claim C5: the bearing difference function computes
min(|a − b| mod 360, 360 − (|a − b| mod 360)), with the two concrete
values from the spec. -/
theorem normalizeBearingDifference_spec :
    (∀ a b : ℚ, normalizeBearingDifference a b =
        min (jsMod |a - b| 360) (360 - jsMod |a - b| 360))
    ∧ normalizeBearingDifference 10 350 = 20
    ∧ normalizeBearingDifference 0 180 = 180 := by
  refine ⟨?_, ?_, ?_⟩
  · intro a b
    simp only [normalizeBearingDifference]
    rw [jsAbs_eq_abs]
    by_cases h : 180 < jsMod |a - b| 360
    · rw [if_pos h, min_eq_right (by linarith)]
    · rw [if_neg h, min_eq_left (by linarith)]
  · have h : Int.tdiv 17 18 = 0 := by decide
    norm_num [normalizeBearingDifference, jsMod, jsAbs, truncQ, h]
  · have h : Int.tdiv 1 2 = 0 := by decide
    norm_num [normalizeBearingDifference, jsMod, jsAbs, truncQ, h]

/-! ## Two-tier street-view cache (client cache module)

Keys are modelled as abstract strings: every claim about the cache is
quantified over already-quantized keys, so the `toFixed` formatting of
the key derivation is not needed. Time is passed explicitly as the
`Date.now()` value. -/

def CACHE_VERSION : Int := 2

/-- CACHE_TTL_MS constant: seven days in milliseconds. -/
def CACHE_TTL_MS : Int := 1000 * 60 * 60 * 24 * 7

/-- CacheEntry of the client cache module. -/
structure CacheEntry where
  payload : StreetViewPayload
  cachedAt : Int
  version : Int
deriving DecidableEq, Repr

/-- What a raw localStorage slot can hold: either a string that does
not parse or fails the shape check in a structural way
(`unparsable`), or a parsed object whose three checked fields are
present (`some`) or missing/of the wrong type (`none`). -/
inductive StoredValue where
  | unparsable
  | parsed (version : Option Int) (cachedAt : Option Int) (payload : Option StreetViewPayload)
deriving DecidableEq, Repr

/-- Association-list lookup, the model of Map.get / localStorage.getItem. -/
def alistLookup {κ α : Type} [DecidableEq κ] (key : κ) : List (κ × α) → Option α
  | [] => none
  | (k, v) :: rest => if k = key then some v else alistLookup key rest

/-- Association-list overwrite, the model of Map.set / localStorage.setItem. -/
def alistInsert {κ α : Type} [DecidableEq κ] (key : κ) (value : α) (l : List (κ × α)) :
    List (κ × α) :=
  (key, value) :: l.filter (fun kv => decide (kv.1 ≠ key))

/-- Association-list removal, the model of Map.delete / localStorage.removeItem. -/
def alistErase {κ α : Type} [DecidableEq κ] (key : κ) (l : List (κ × α)) : List (κ × α) :=
  l.filter (fun kv => decide (kv.1 ≠ key))

/-- The two cache tiers: the in-memory Map and the persistent
localStorage (modelled as available, the configuration the claims are
about). -/
structure CacheState where
  memory : List (String × CacheEntry)
  storage : List (String × StoredValue)
deriving DecidableEq, Repr

/-- isExpired from the cache module. -/
def isExpired (now : Int) (entry : CacheEntry) : Bool :=
  decide (CACHE_TTL_MS < now - entry.cachedAt)

/-- loadFromStorage from the cache module: validation failures
(unparsable, missing fields, version mismatch) remove the slot and
report absent. Returns the loaded entry together with the storage tier
after any removal. -/
def loadFromStorage (key : String) (storage : List (String × StoredValue)) :
    Option CacheEntry × List (String × StoredValue) :=
  match alistLookup key storage with
  | none => (none, storage)
  | some StoredValue.unparsable => (none, alistErase key storage)
  | some (StoredValue.parsed version cachedAt payload) =>
    match version, cachedAt, payload with
    | some v, some c, some p =>
      if v = CACHE_VERSION then (some ⟨p, c, v⟩, storage)
      else (none, alistErase key storage)
    | _, _, _ => (none, alistErase key storage)

/-- getCachedStreetView from the cache module: tier-1 hit within TTL is
returned unchanged; an expired tier-1 hit is removed from both tiers;
on a tier-1 miss a valid unexpired tier-2 entry is promoted into
tier 1, an expired one is removed from tier 2. -/
def getCachedStreetView (now : Int) (key : String) (st : CacheState) :
    Option StreetViewPayload × CacheState :=
  match alistLookup key st.memory with
  | some inMemory =>
    if isExpired now inMemory then
      (none, ⟨alistErase key st.memory, alistErase key st.storage⟩)
    else
      (some inMemory.payload, st)
  | none =>
    match loadFromStorage key st.storage with
    | (none, storage2) => (none, ⟨st.memory, storage2⟩)
    | (some persisted, storage2) =>
      if isExpired now persisted then
        (none, ⟨st.memory, alistErase key storage2⟩)
      else
        (some persisted.payload, ⟨alistInsert key persisted st.memory, storage2⟩)

/-- setCachedStreetView from the cache module: writes both tiers with
the current timestamp and schema version. -/
def setCachedStreetView (now : Int) (key : String) (payload : StreetViewPayload)
    (st : CacheState) : CacheState :=
  ⟨alistInsert key (⟨payload, now, CACHE_VERSION⟩ : CacheEntry) st.memory,
   alistInsert key (StoredValue.parsed (some CACHE_VERSION) (some now) (some payload)) st.storage⟩

theorem alistLookup_insert {κ α : Type} [DecidableEq κ] (key : κ) (value : α)
    (l : List (κ × α)) : alistLookup key (alistInsert key value l) = some value := by
  simp [alistInsert, alistLookup]

/-- Claim C6: a read never returns an entry written more than the
7-day TTL ago, and returns the stored payload (including an empty
one) when the entry is unexpired. -/
theorem cache_ttl_spec (st : CacheState) (key : String) (payload : StreetViewPayload)
    (t now : Int) :
    (CACHE_TTL_MS < now - t →
      (getCachedStreetView now key (setCachedStreetView t key payload st)).1 = none)
    ∧ (now - t ≤ CACHE_TTL_MS →
      (getCachedStreetView now key (setCachedStreetView t key payload st)).1 = some payload) := by
  have hmem : alistLookup key (setCachedStreetView t key payload st).memory
      = some (⟨payload, t, CACHE_VERSION⟩ : CacheEntry) := by
    unfold setCachedStreetView
    exact alistLookup_insert key _ st.memory
  constructor
  · intro h
    have hexp : isExpired now (⟨payload, t, CACHE_VERSION⟩ : CacheEntry) = true := by
      simp only [isExpired, decide_eq_true_eq]
      exact h
    unfold getCachedStreetView
    rw [hmem]
    simp [hexp]
  · intro h
    have hexp : isExpired now (⟨payload, t, CACHE_VERSION⟩ : CacheEntry) = false := by
      simp only [isExpired, decide_eq_false_iff_not]
      omega
    unfold getCachedStreetView
    rw [hmem]
    simp [hexp]

/-- Witness for C6 with concrete times: an empty payload written
8 days ago is reported absent, and written 1 hour ago is returned as
the same empty payload. -/
theorem cache_ttl_spec_witness :
    (CACHE_TTL_MS < 691200000 - 0
      ∧ (getCachedStreetView 691200000 "k"
          (setCachedStreetView 0 "k" ⟨[], 0⟩ ⟨[], []⟩)).1 = none)
    ∧ (3600000 - 0 ≤ CACHE_TTL_MS
      ∧ (getCachedStreetView 3600000 "k"
          (setCachedStreetView 0 "k" ⟨[], 0⟩ ⟨[], []⟩)).1 = some ⟨[], 0⟩) := by
  have h8 := (cache_ttl_spec ⟨[], []⟩ "k" ⟨[], 0⟩ 0 691200000).1 (by decide)
  have h1 := (cache_ttl_spec ⟨[], []⟩ "k" ⟨[], 0⟩ 0 3600000).2 (by decide)
  exact ⟨⟨by decide, h8⟩, ⟨by decide, h1⟩⟩

/-- Claim C7: the full case analysis of the two-tier read. A fresh
tier-1 hit is returned with no state change; an expired tier-1 hit is
removed from both tiers and reported absent; on a tier-1 miss, a
valid, unexpired, version-matching tier-2 entry is promoted into
tier 1 and returned, while an unparsable slot, a slot with a missing
field or wrong version, or an expired entry is removed from tier 2 and
reported absent. -/
theorem cache_two_tier_read_spec (st : CacheState) (key : String) (now : Int) :
    (∀ e, alistLookup key st.memory = some e → isExpired now e = false →
      getCachedStreetView now key st = (some e.payload, st))
    ∧ (∀ e, alistLookup key st.memory = some e → isExpired now e = true →
      getCachedStreetView now key st =
        (none, ⟨alistErase key st.memory, alistErase key st.storage⟩))
    ∧ (alistLookup key st.memory = none →
        (alistLookup key st.storage = some StoredValue.unparsable →
          getCachedStreetView now key st = (none, ⟨st.memory, alistErase key st.storage⟩))
        ∧ (∀ v c p, alistLookup key st.storage = some (StoredValue.parsed v c p) →
            (v = some CACHE_VERSION → c = none ∨ p = none) →
            getCachedStreetView now key st = (none, ⟨st.memory, alistErase key st.storage⟩))
        ∧ (∀ c p, alistLookup key st.storage
              = some (StoredValue.parsed (some CACHE_VERSION) (some c) (some p)) →
            isExpired now ⟨p, c, CACHE_VERSION⟩ = true →
            getCachedStreetView now key st = (none, ⟨st.memory, alistErase key st.storage⟩))
        ∧ (∀ c p, alistLookup key st.storage
              = some (StoredValue.parsed (some CACHE_VERSION) (some c) (some p)) →
            isExpired now ⟨p, c, CACHE_VERSION⟩ = false →
            getCachedStreetView now key st =
              (some p, ⟨alistInsert key ⟨p, c, CACHE_VERSION⟩ st.memory, st.storage⟩))) := by
  refine ⟨?_, ?_, ?_⟩
  · intro e hmem hexp
    unfold getCachedStreetView
    rw [hmem]
    simp [hexp]
  · intro e hmem hexp
    unfold getCachedStreetView
    rw [hmem]
    simp [hexp]
  · intro hmiss
    refine ⟨?_, ?_, ?_, ?_⟩
    · intro hsv
      unfold getCachedStreetView
      rw [hmiss]
      unfold loadFromStorage
      rw [hsv]
    · intro v c p hsv hbad
      unfold getCachedStreetView
      rw [hmiss]
      unfold loadFromStorage
      rw [hsv]
      match v, c, p, hbad with
      | none, c, p, _ => rfl
      | some vv, c, p, hbad =>
        by_cases hv : vv = CACHE_VERSION
        · subst hv
          rcases hbad rfl with hc | hp
          · subst hc
            rfl
          · subst hp
            match c with
            | none => rfl
            | some cc => rfl
        · match c, p with
          | none, _ => rfl
          | some cc, none => rfl
          | some cc, some pp => simp [hv]
    · intro c p hsv hexp
      unfold getCachedStreetView
      rw [hmiss]
      unfold loadFromStorage
      rw [hsv]
      simp [hexp]
    · intro c p hsv hexp
      unfold getCachedStreetView
      rw [hmiss]
      unfold loadFromStorage
      rw [hsv]
      simp [hexp]

/-- Witness for C7: a concrete tier-1 miss with a valid unexpired
tier-2 entry is promoted and returned, and a wrong-version tier-2 slot
is removed and reported absent. -/
theorem cache_two_tier_read_spec_witness :
    (alistLookup "k" ([] : List (String × CacheEntry)) = none
      ∧ getCachedStreetView 100 "k"
          ⟨[], [("k", StoredValue.parsed (some 2) (some 50) (some ⟨[], 0⟩))]⟩
        = (some ⟨[], 0⟩,
            ⟨[("k", (⟨⟨[], 0⟩, 50, 2⟩ : CacheEntry))],
             [("k", StoredValue.parsed (some 2) (some 50) (some ⟨[], 0⟩))]⟩))
    ∧ getCachedStreetView 100 "k2"
          ⟨[], [("k2", StoredValue.parsed (some 1) (some 50) (some ⟨[], 0⟩))]⟩
        = (none, ⟨[], []⟩) := by
  have hpromote := (cache_two_tier_read_spec
      ⟨[], [("k", StoredValue.parsed (some 2) (some 50) (some ⟨[], 0⟩))]⟩ "k" 100).2.2
      (by decide)
  have hbad := (cache_two_tier_read_spec
      ⟨[], [("k2", StoredValue.parsed (some 1) (some 50) (some ⟨[], 0⟩))]⟩ "k2" 100).2.2
      (by decide)
  refine ⟨⟨by decide, ?_⟩, ?_⟩
  · have h := hpromote.2.2.2 50 ⟨[], 0⟩ (by decide) (by decide)
    rw [h]
    decide
  · have h := hbad.2.1 (some 1) (some 50) (some ⟨[], 0⟩) (by decide) (by decide)
    rw [h]
    decide

/-! ## API route (route.ts GET handler)

The server-side file cache behind the route is keyed by the quantized
(lat, lng, bearing) triple; the model keys directly by the triple since
no claim depends on the decimal formatting of the key string. The
upstream fetch is a parameter: the route is a pure function of the
request, the token, the upstream outcome and the cache state. -/

/-- CacheEntry of the server file cache consumed by route.ts, reduced
to the fields the route reads back. -/
structure ServerEntry where
  payload : StreetViewPayload
  cachedAt : Int
deriving DecidableEq, Repr

abbrev ServerCache : Type := List ((ℚ × ℚ × ℚ) × ServerEntry)

/-- getCachedStreetView of the server file cache: lookup, TTL check
with passive eviction, return of the stored payload. -/
def serverGetCached (now : Int) (key : ℚ × ℚ × ℚ) (cache : ServerCache) :
    Option StreetViewPayload × ServerCache :=
  match alistLookup key cache with
  | none => (none, cache)
  | some entry =>
    if CACHE_TTL_MS < now - entry.cachedAt then (none, alistErase key cache)
    else (some entry.payload, cache)

/-- setCachedStreetView of the server file cache. -/
def serverSetCached (now : Int) (key : ℚ × ℚ × ℚ) (payload : StreetViewPayload)
    (cache : ServerCache) : ServerCache :=
  alistInsert key ⟨payload, now⟩ cache

/-- Outcome of the upstream Mapillary fetch as the route observes it:
the fetch call throws, the response is non-ok, or a parsed data
array. -/
inductive UpstreamResult where
  | fetchError
  | httpError
  | ok (images : List RawImage)
deriving DecidableEq, Repr

/-- Response of the GET handler: HTTP status, the JSON payload of a
success response, and whether the upstream service was contacted. -/
structure RouteResponse where
  status : Nat
  payload : Option StreetViewPayload
  queriedUpstream : Bool
deriving DecidableEq, Repr

/-- JavaScript falsiness of `searchParams.get(...)`: null or the empty
string. -/
def isFalsyParam : Option String → Bool
  | none => true
  | some s => s.isEmpty

/-- Bearing normalization of the GET handler: parseFloat then `% 360`,
then `((x % 360) + 360) % 360`, with NaN (a failed parse) propagating
to null through the Number.isFinite check. -/
def parseNormalizedBearing (parse : String → Option ℚ) (bearingParam : Option String) :
    Option ℚ :=
  match bearingParam with
  | none => none
  | some s =>
    match parse s with
    | none => none
    | some q => some (jsMod (jsMod (jsMod q 360) 360 + 360) 360)

/-- The GET handler of route.ts. `parse` abstracts `Number.parseFloat`
composed with the Number.isFinite check (`none` for NaN and the
infinities). Order of the guards matches the source: missing/empty
params, then the access token, then numeric validation, then the
bearing-guarded cache read, then the fetch and the bearing-guarded
cache write. -/
def routeGET (parse : String → Option ℚ) (latParam lngParam bearingParam : Option String)
    (accessToken : Option String) (upstream : UpstreamResult) (now : Int)
    (cache : ServerCache) : RouteResponse × ServerCache :=
  if isFalsyParam latParam || isFalsyParam lngParam then
    (⟨400, none, false⟩, cache)
  else
    match accessToken with
    | none => (⟨500, none, false⟩, cache)
    | some _ =>
      match parse (latParam.getD ""), parse (lngParam.getD "") with
      | some lat, some lng =>
        let normalizedBearing := parseNormalizedBearing parse bearingParam
        let readResult :=
          match normalizedBearing with
          | some b => serverGetCached now (lat, lng, b) cache
          | none => (none, cache)
        match readResult.1 with
        | some payload => (⟨200, some payload, false⟩, readResult.2)
        | none =>
          match upstream with
          | UpstreamResult.fetchError => (⟨502, none, true⟩, readResult.2)
          | UpstreamResult.httpError => (⟨502, none, true⟩, readResult.2)
          | UpstreamResult.ok images =>
            let payloadToReturn := selectPayload normalizedBearing images
            let cache2 :=
              match normalizedBearing with
              | some b => serverSetCached now (lat, lng, b) payloadToReturn readResult.2
              | none => readResult.2
            (⟨200, some payloadToReturn, true⟩, cache2)
      | _, _ => (⟨400, none, false⟩, cache)

/-- Claim C8: 400 for missing/empty or non-finite lat/lng, 500 for a
missing access token (checked between the two 400 guards, as in the
source), 502 when the fetch was attempted and the upstream threw or
answered non-ok, and no status outside 200/400/500/502 is ever
produced. -/
theorem route_error_responses (parse : String → Option ℚ)
    (latParam lngParam bearingParam accessToken : Option String)
    (upstream : UpstreamResult) (now : Int) (cache : ServerCache) :
    ((isFalsyParam latParam || isFalsyParam lngParam) = true →
      (routeGET parse latParam lngParam bearingParam accessToken upstream now cache).1.status
        = 400)
    ∧ ((isFalsyParam latParam || isFalsyParam lngParam) = false → accessToken = none →
      (routeGET parse latParam lngParam bearingParam accessToken upstream now cache).1.status
        = 500)
    ∧ ((isFalsyParam latParam || isFalsyParam lngParam) = false →
      ∀ tk, accessToken = some tk →
      (parse (latParam.getD "") = none ∨ parse (lngParam.getD "") = none) →
      (routeGET parse latParam lngParam bearingParam accessToken upstream now cache).1.status
        = 400)
    ∧ ((routeGET parse latParam lngParam bearingParam accessToken upstream now
          cache).1.queriedUpstream = true →
      (upstream = UpstreamResult.fetchError ∨ upstream = UpstreamResult.httpError) →
      (routeGET parse latParam lngParam bearingParam accessToken upstream now cache).1.status
        = 502)
    ∧ ((routeGET parse latParam lngParam bearingParam accessToken upstream now cache).1.status
          = 200
        ∨ (routeGET parse latParam lngParam bearingParam accessToken upstream now cache).1.status
          = 400
        ∨ (routeGET parse latParam lngParam bearingParam accessToken upstream now cache).1.status
          = 500
        ∨ (routeGET parse latParam lngParam bearingParam accessToken upstream now cache).1.status
          = 502) := by
  refine ⟨?_, ?_, ?_, ?_, ?_⟩
  · intro h
    simp [routeGET, h]
  · intro h htok
    subst htok
    simp [routeGET, h]
  · intro h tk htk hbad
    subst htk
    cases hl : parse (latParam.getD "") with
    | none => simp [routeGET, h, hl]
    | some lat =>
      rcases hbad with hb | hb
      · rw [hl] at hb
        exact absurd hb (by simp)
      · simp [routeGET, h, hl, hb]
  · intro hq hup
    by_cases hfal : (isFalsyParam latParam || isFalsyParam lngParam) = true
    · simp [routeGET, hfal] at hq
    · have hfal' : (isFalsyParam latParam || isFalsyParam lngParam) = false := by
        simpa using hfal
      cases accessToken with
      | none => simp [routeGET, hfal'] at hq
      | some tk =>
        cases hl : parse (latParam.getD "") with
        | none => simp [routeGET, hfal', hl] at hq
        | some lat =>
          cases hlg : parse (lngParam.getD "") with
          | none => simp [routeGET, hfal', hl, hlg] at hq
          | some lng =>
            cases hnb : parseNormalizedBearing parse bearingParam with
            | none =>
              rcases hup with h | h <;> subst h <;> simp [routeGET, hfal', hl, hlg, hnb]
            | some b =>
              cases hcr : (serverGetCached now (lat, lng, b) cache).1 with
              | some payload => simp [routeGET, hfal', hl, hlg, hnb, hcr] at hq
              | none =>
                rcases hup with h | h <;> subst h <;>
                  simp [routeGET, hfal', hl, hlg, hnb, hcr]
  · by_cases hfal : (isFalsyParam latParam || isFalsyParam lngParam) = true
    · simp [routeGET, hfal]
    · have hfal' : (isFalsyParam latParam || isFalsyParam lngParam) = false := by
        simpa using hfal
      cases accessToken with
      | none => simp [routeGET, hfal']
      | some tk =>
        cases hl : parse (latParam.getD "") with
        | none => simp [routeGET, hfal', hl]
        | some lat =>
          cases hlg : parse (lngParam.getD "") with
          | none => simp [routeGET, hfal', hl, hlg]
          | some lng =>
            cases hnb : parseNormalizedBearing parse bearingParam with
            | none =>
              cases upstream <;> simp [routeGET, hfal', hl, hlg, hnb]
            | some b =>
              cases hcr : (serverGetCached now (lat, lng, b) cache).1 with
              | some payload => simp [routeGET, hfal', hl, hlg, hnb, hcr]
              | none =>
                cases upstream <;> simp [routeGET, hfal', hl, hlg, hnb, hcr]

/-- Witness for C8: a missing access token with valid coordinates is a
500, and a request without coordinates is a 400. -/
theorem route_error_responses_witness :
    (isFalsyParam (some "40.7") || isFalsyParam (some "-73.9")) = false
    ∧ (routeGET (fun _ => none) (some "40.7") (some "-73.9") none none
        UpstreamResult.fetchError 0 []).1.status = 500
    ∧ (routeGET (fun _ => none) none none none (some "tok")
        UpstreamResult.fetchError 0 []).1.status = 400 := by
  have h1 := route_error_responses (fun _ => none) (some "40.7") (some "-73.9") none none
    UpstreamResult.fetchError 0 []
  have h2 := route_error_responses (fun _ => none) none none none (some "tok")
    UpstreamResult.fetchError 0 []
  exact ⟨by decide, h1.2.1 (by decide) rfl, h2.1 (by decide)⟩

/-- Counterexample to C10 as written: a request whose bearing parameter
is absent but whose lat/lng are also missing is rejected with 400
before any upstream call, so a bearing-less request does not always
query the upstream image-index service. -/
theorem route_bearing_claim_counterexample :
    parseNormalizedBearing (fun _ => none) none = none
    ∧ (routeGET (fun _ => none) none none none (some "token") (UpstreamResult.ok []) 0
        []).1.queriedUpstream = false := by
  exact ⟨rfl, rfl⟩

/-- Claim C10 (amended): when the bearing parameter is absent or does
not parse to a finite number, the handler leaves the cache state
unchanged (no read, no write); and whenever such a request passes
parameter validation and an access token is configured, it queries the
upstream service (only the 400/500 rejections skip the upstream
fetch). -/
theorem route_no_bearing_no_cache (parse : String → Option ℚ)
    (latParam lngParam bearingParam accessToken : Option String)
    (upstream : UpstreamResult) (now : Int) (cache : ServerCache)
    (hnb : parseNormalizedBearing parse bearingParam = none) :
    (routeGET parse latParam lngParam bearingParam accessToken upstream now cache).2 = cache
    ∧ ((isFalsyParam latParam || isFalsyParam lngParam) = false →
        ∀ tk, accessToken = some tk →
        ∀ lat lng, parse (latParam.getD "") = some lat →
          parse (lngParam.getD "") = some lng →
        (routeGET parse latParam lngParam bearingParam accessToken upstream now
          cache).1.queriedUpstream = true) := by
  constructor
  · by_cases hfal : (isFalsyParam latParam || isFalsyParam lngParam) = true
    · simp [routeGET, hfal]
    · have hfal' : (isFalsyParam latParam || isFalsyParam lngParam) = false := by
        simpa using hfal
      cases accessToken with
      | none => simp [routeGET, hfal']
      | some tk =>
        cases hl : parse (latParam.getD "") with
        | none => simp [routeGET, hfal', hl]
        | some lat =>
          cases hlg : parse (lngParam.getD "") with
          | none => simp [routeGET, hfal', hl, hlg]
          | some lng =>
            cases upstream <;> simp [routeGET, hfal', hl, hlg, hnb]
  · intro hfal tk htk lat lng hl hlg
    subst htk
    cases upstream <;> simp [routeGET, hfal, hl, hlg, hnb]

/-- Witness for the amended C10: a valid bearing-less request with an
empty upstream result leaves the empty cache unchanged and reaches the
upstream. -/
theorem route_no_bearing_no_cache_witness :
    parseNormalizedBearing
        (fun s => if s = "40.0" then some (40 : ℚ) else if s = "-73.0" then some (-73) else none)
        none = none
    ∧ (routeGET
        (fun s => if s = "40.0" then some (40 : ℚ) else if s = "-73.0" then some (-73) else none)
        (some "40.0") (some "-73.0") none (some "tok") (UpstreamResult.ok []) 0 []).2 = []
    ∧ (routeGET
        (fun s => if s = "40.0" then some (40 : ℚ) else if s = "-73.0" then some (-73) else none)
        (some "40.0") (some "-73.0") none (some "tok") (UpstreamResult.ok []) 0
        []).1.queriedUpstream = true := by
  have h := route_no_bearing_no_cache
    (fun s => if s = "40.0" then some (40 : ℚ) else if s = "-73.0" then some (-73) else none)
    (some "40.0") (some "-73.0") none (some "tok") (UpstreamResult.ok []) 0 [] rfl
  exact ⟨rfl, h.1, h.2 (by decide) "tok" rfl 40 (-73) (by decide) (by decide)⟩

end NoisyNyc
